import Mathlib

/-!
Shallow embedding of the `my-menu` koishi plugin (src/src/index.ts), together
with the two unnamed source variants (src/unnamed/part_000, part_001).

The plugin keeps an in-memory `Map` from entry id to menu entry, in insertion
order.  We model that map as an insertion-ordered list of `MenuItem`s whose
ids act as keys: `Map.get` is the first entry with the given id, `Map.set`
replaces in place when the id is present and appends otherwise, and
`Map.delete` removes the entry.  JavaScript numbers used as display orders are
modelled as `Int`; JavaScript truthiness on strings/numbers is made explicit
(`""` and `0` are falsy).
-/

/-- One catalog record, mirroring the `MenuItem` shape of the source
(the `defaultItems` schema of src/src/index.ts). -/
structure MenuItem where
  id : String
  name : String
  description : String
  command : String
  category : String
  enabled : Bool
  order : Int
  permissions : List String
deriving DecidableEq, Repr

/-- Plugin configuration, mirroring the `Config` schema of src/src/index.ts
with the schema defaults. -/
structure Config where
  defaultCategory : String := "通用功能"
  enableCategories : Bool := true
  itemsPerPage : Nat := 10
  adminPermission : String := "menu.admin"
  enableImageMenu : Bool := false
  imageFooterText : String := "菜单管理插件 | 使用 menu -i 查看图片菜单"
  imageWidth : Nat := 1600
  imageColumnWidth : Nat := 400
deriving Repr

/-- The configuration with every field at its schema default. -/
def defaultConfig : Config := {}

/-- The in-memory store: `menuItems : Map` as the insertion-ordered list of
its values. -/
abbrev MenuStore := List MenuItem

/-- `menuItems.get(id)`: the first stored entry with the given id. -/
def storeGet (store : MenuStore) (id : String) : Option MenuItem :=
  store.find? (fun x => decide (x.id = id))

/-- `menuItems.set(e.id, e)`: replace in place when the id is present,
append otherwise (JavaScript `Map.set` keeps the key's insertion position). -/
def storeSet (store : MenuStore) (e : MenuItem) : MenuStore :=
  if store.any (fun x => decide (x.id = e.id)) then
    store.map (fun x => if x.id = e.id then e else x)
  else
    store ++ [e]

/-- `menuItems.delete(id)`: drop the entry with the given id. -/
def storeDelete (store : MenuStore) (id : String) : MenuStore :=
  store.filter (fun x => decide (x.id ≠ id))

/-- JavaScript `String.prototype.includes`: `pat` occurs contiguously in `s`. -/
def strIncludes (s pat : String) : Bool :=
  (List.range (s.data.length + 1)).any
    (fun i => decide ((s.data.drop i).take pat.data.length = pat.data))

/-- `String.prototype.toLowerCase` as used by the source's filters, as a
character-wise map over the string data. -/
def jsToLower (s : String) : String :=
  String.mk (s.data.map Char.toLower)

/-- JavaScript truthiness on an optional string option: an absent option and
the empty string are both falsy. -/
def truthyStrOpt : Option String → Option String
  | some c => if c = "" then none else some c
  | none => none

/-- `options.x || default` for string options (`""` is falsy). -/
def jsOrStr (o : Option String) (d : String) : String :=
  match o with
  | some v => if v = "" then d else v
  | none => d

/-- `options.x || default` for numeric options (`0` is falsy). -/
def jsOrInt (o : Option Int) (d : Int) : Int :=
  match o with
  | some v => if v = 0 then d else v
  | none => d

/-- The comparison underlying `filteredItems.sort((a, b) => a.order - b.order)`. -/
def menuItemLe (a b : MenuItem) : Prop := a.order ≤ b.order

instance : DecidableRel menuItemLe := fun a b => Int.decLe a.order b.order

instance : IsTotal MenuItem menuItemLe := ⟨fun a b => Int.le_total a.order b.order⟩

instance : IsTrans MenuItem menuItemLe := ⟨fun _ _ _ h₁ h₂ => le_trans h₁ h₂⟩

/-- `filteredItems.sort((a, b) => a.order - b.order)`: JavaScript `Array.sort`
is a stable ascending sort for this comparator (ECMAScript 2019), embedded as
a stable insertion sort. -/
def sortByOrder (l : List MenuItem) : List MenuItem :=
  List.insertionSort menuItemLe l

/-- Options of the `menu` browse command (`-c`, `-p`, `-i`, `-a`);
`page` defaults to 1 in the source. -/
structure MenuQuery where
  category : Option String := none
  page : Nat := 1
  image : Bool := false
  all : Bool := false

/-- The filter/sort part of the `menu` action: keep enabled entries, keep
category matches when a (truthy) category was supplied — case-insensitive
substring match — and sort by `order`. -/
def menuFiltered (cfg : Config) (store : MenuStore) (q : MenuQuery) : List MenuItem :=
  let enabledItems := store.filter (fun x => x.enabled)
  let filtered :=
    match truthyStrOpt q.category with
    | some c => enabledItems.filter (fun x => strIncludes (jsToLower x.category) (jsToLower c))
    | none => enabledItems
  sortByOrder filtered

/-- `Math.ceil(n / s)` for natural inputs (the page-count formula of the
source). -/
def jsCeilDiv (n s : Nat) : Nat := (n + s - 1) / s

/-- The page window of the `menu` action. -/
structure PageData where
  pageItems : List MenuItem
  currentPage : Nat
  totalPagesValue : Nat
deriving Repr

/-- The pagination part of the `menu` action: the `all` branch returns the
full filtered sequence as page 1 of 1; otherwise slice
`[(page-1)*itemsPerPage, page*itemsPerPage)` and compute
`Math.ceil(filteredItems.length / itemsPerPage)`. -/
def menuPaginate (cfg : Config) (q : MenuQuery) (filtered : List MenuItem) : PageData :=
  if q.all then
    { pageItems := filtered, currentPage := 1, totalPagesValue := 1 }
  else
    let startIndex := (q.page - 1) * cfg.itemsPerPage
    { pageItems := (filtered.drop startIndex).take cfg.itemsPerPage
      currentPage := q.page
      totalPagesValue := jsCeilDiv filtered.length cfg.itemsPerPage }

/-- One page slice as the source computes it (pages are 1-indexed). -/
def menuSlice (s : Nat) (l : List MenuItem) (page : Nat) : List MenuItem :=
  (l.drop ((page - 1) * s)).take s

/-- The pagination footer of the text response.  The source recomputes
`totalPagesForText = Math.ceil(filteredItems.length / itemsPerPage)` from the
unpaginated count and uses the raw `page` option, even in show-all mode, and
never mentions the category filter. -/
def textPageFooter (cfg : Config) (q : MenuQuery) (filteredLen : Nat) : String :=
  let t := jsCeilDiv filteredLen cfg.itemsPerPage
  if 1 < t then
    "\n第 " ++ toString q.page ++ "/" ++ toString t ++ " 页，使用 menu -p "
      ++ toString (q.page + 1) ++ " 查看下一页"
  else ""

/-- The page-indicator line of the image footer (shown only when the passed
total page count exceeds 1). -/
def imagePageInfo (pageNum totalPages : Nat) : String :=
  if 1 < totalPages then
    "<div>第 <span class=\"page-info\">" ++ toString pageNum
      ++ "</span> / <span class=\"page-info\">" ++ toString totalPages
      ++ "</span> 页</div>"
  else ""

/-- The next-page hint of the image footer: built only when not in show-all
mode, more than one page exists and a further page follows; it includes the
category option when that option is truthy. -/
def nextPageHint (pageNum totalPages : Nat) (category : Option String) (all : Bool) : String :=
  if ¬ all ∧ 1 < totalPages ∧ pageNum < totalPages then
    "<div class=\"next-page-hint\">📄 下一页: menu -p " ++ toString (pageNum + 1)
      ++ (match truthyStrOpt category with
          | some c => " -c " ++ c
          | none => "")
      ++ " -i</div>"
  else ""

/-- The dynamic column count of the image layout:
`Math.floor(config.imageWidth / config.imageColumnWidth)`. -/
def columns (cfg : Config) : Nat := cfg.imageWidth / cfg.imageColumnWidth

/-- The fixed inter-item gap of the image grid, in pixels. -/
def gapSize : ℚ := 12

/-- The flex basis the source emits per item,
`calc(${100 / columns}% - ${12 / columns}px)`, as the pair
(percent share, pixel reduction). -/
def flexBasis (c : Nat) : ℚ × ℚ := (100 / (c : ℚ), 12 / (c : ℚ))

/-- Modelled from the spec: the claimed pixel reduction of each item's share,
`gap * (columns - 1) / columns`. -/
def specGapReduction (c : Nat) : ℚ := 12 * ((c : ℚ) - 1) / (c : ℚ)

/-- The pixel width one box receives at row width `w` under the source's flex
basis. -/
def itemWidth (w : ℚ) (c : Nat) : ℚ :=
  w * (flexBasis c).1 / 100 - (flexBasis c).2

/-- The caller-side inputs of `checkPermission`: the session's user id, the
session user's `authority` field (0 when absent — falsy in JavaScript), and
the outcome of `ctx.permissions.test` (`none` when the permission system is
absent or its call throws). -/
structure Session where
  userId : String
  authority : Nat
  permTest : Option Bool
deriving DecidableEq, Repr

/-- The hardcoded fallback allow-list of `checkPermission`. -/
def adminUsers : List String := ["123456789", "987654321"]

/-- `checkPermission(session, permission)` of src/src/index.ts: grant when
`session.user.authority >= 3`; otherwise defer to `ctx.permissions.test` when
it is available and does not throw; otherwise fall back to the static admin
user-id list. -/
def checkPermission (s : Session) : Bool :=
  if 3 ≤ s.authority then true
  else
    match s.permTest with
    | some b => b
    | none => adminUsers.contains s.userId

/-- The mutation guard of src/src/index.ts,
`!session?.userId || !(await checkPermission(session, config.adminPermission))`. -/
def guardDenies (s : Session) : Bool :=
  (s.userId == "") || (!(checkPermission s))

/-- The permission-denied reply common to all mutating commands. -/
def permDeniedMsg : String := "您没有权限执行此操作。"

/-- The unknown-id reply common to the id-taking commands. -/
def notFoundMsg (id : String) : String := "未找到ID为\"" ++ id ++ "\"的菜单项。"

/-- A character the id slug keeps: matches `[a-z0-9一-龥]` after
lower-casing. -/
def slugChar (c : Char) : Bool :=
  (c.isLower || c.isDigit) || (decide (0x4e00 ≤ c.toNat) && decide (c.toNat ≤ 0x9fa5))

/-- Collapse runs of dashes to a single dash (the second `.replace` step of
the id generation). -/
def collapseDashes : List Char → List Char
  | [] => []
  | [c] => [c]
  | c₁ :: c₂ :: rest =>
    if c₁ = '-' ∧ c₂ = '-' then collapseDashes (c₂ :: rest)
    else c₁ :: collapseDashes (c₂ :: rest)

/-- Strip one leading and one trailing dash (the third `.replace` step of the
id generation). -/
def stripEdgeDash (l : List Char) : List Char :=
  let l₁ := match l with
    | '-' :: rest => rest
    | other => other
  match l₁.getLast? with
  | some '-' => l₁.dropLast
  | _ => l₁

/-- The id slug `menu.add` derives from the display name (before the
timestamp suffix is appended). -/
def slugify (name : String) : String :=
  String.mk (stripEdgeDash (collapseDashes
    (name.toLower.data.map (fun c => if slugChar c then c else '-'))))

/-- The `menu.add` action.  The timestamp suffix `Date.now().toString(36)` is
passed in as `suffix`.  Validation precedes the permission guard; the insert
is an unguarded `Map.set`. -/
def menuAdd (cfg : Config) (store : MenuStore) (s : Session) (name command : String)
    (descOpt catOpt : Option String) (orderOpt : Option Int) (suffix : String) :
    String × MenuStore :=
  if name = "" ∨ command = "" then ("请输入菜单项名称和命令。", store)
  else if guardDenies s then (permDeniedMsg, store)
  else
    let id := slugify name ++ "-" ++ suffix
    let newItem : MenuItem :=
      { id := id
        name := name
        description := jsOrStr descOpt "暂无描述"
        command := command
        category := jsOrStr catOpt cfg.defaultCategory
        enabled := true
        order := jsOrInt orderOpt ((store.length : Int) + 1)
        permissions := [] }
    ("✅ 菜单项 \"" ++ name ++ "\" 添加成功！ID: " ++ id, storeSet store newItem)

/-- The option record of `menu.edit` (`-n`, `-d`, `-c`, `-cat`, `-o`). -/
structure EditOptions where
  name : Option String := none
  description : Option String := none
  command : Option String := none
  category : Option String := none
  order : Option Int := none
deriving DecidableEq, Repr

/-- The field updates of `menu.edit`: each `if (options.x) item.x = options.x`
applies a field only when the option is present and truthy (non-empty string,
non-zero number). -/
def applyEdit (item : MenuItem) (o : EditOptions) : MenuItem :=
  let i₁ := match o.name with
    | some v => if v = "" then item else { item with name := v }
    | none => item
  let i₂ := match o.description with
    | some v => if v = "" then i₁ else { i₁ with description := v }
    | none => i₁
  let i₃ := match o.command with
    | some v => if v = "" then i₂ else { i₂ with command := v }
    | none => i₂
  let i₄ := match o.category with
    | some v => if v = "" then i₃ else { i₃ with category := v }
    | none => i₃
  match o.order with
  | some v => if v = 0 then i₄ else { i₄ with order := v }
  | none => i₄

/-- The `menu.edit` action. -/
def menuEdit (store : MenuStore) (s : Session) (id : String) (o : EditOptions) :
    String × MenuStore :=
  if guardDenies s then (permDeniedMsg, store)
  else
    match storeGet store id with
    | none => (notFoundMsg id, store)
    | some item =>
      let updated := applyEdit item o
      ("✅ 菜单项 \"" ++ updated.name ++ "\" 更新成功！", storeSet store updated)

/-- The `menu.delete` action. -/
def menuDelete (store : MenuStore) (s : Session) (id : String) : String × MenuStore :=
  if guardDenies s then (permDeniedMsg, store)
  else
    match storeGet store id with
    | none => (notFoundMsg id, store)
    | some item =>
      ("✅ 菜单项 \"" ++ item.name ++ "\" 已删除。", storeDelete store id)

/-- The `menu.toggle` action. -/
def menuToggle (store : MenuStore) (s : Session) (id : String) : String × MenuStore :=
  if guardDenies s then (permDeniedMsg, store)
  else
    match storeGet store id with
    | none => (notFoundMsg id, store)
    | some item =>
      let updated := { item with enabled := !item.enabled }
      ("✅ 菜单项 \"" ++ updated.name ++ "\" 已"
        ++ (if updated.enabled then "启用" else "禁用") ++ "。", storeSet store updated)

/-- The `menu.category.change` action. -/
def menuCategoryChange (store : MenuStore) (s : Session) (id : String)
    (newCategory : String) : String × MenuStore :=
  if guardDenies s then (permDeniedMsg, store)
  else
    match storeGet store id with
    | none => (notFoundMsg id, store)
    | some item =>
      let updated := { item with category := newCategory }
      ("✅ 菜单项 \"" ++ item.name ++ "\" 已从\"" ++ item.category ++ "\"移动到\""
        ++ newCategory ++ "\"。", storeSet store updated)

/-- A JavaScript value as far as the variant guards observe one: either a
boolean or a (pending) Promise object. -/
inductive JSVal where
  | bool : Bool → JSVal
  | promiseVal : JSVal
deriving DecidableEq, Repr

/-- JavaScript truthiness: every Promise object is truthy. -/
def JSVal.truthy : JSVal → Bool
  | JSVal.bool b => b
  | JSVal.promiseVal => true

/-- In the variant sources (src/unnamed/part_000 and part_001) every mutating
action calls the `async` function `checkPermission` without `await`, so the
value the guard observes is the Promise object itself, whatever the session. -/
def variantPermissionCall (s : Session) : JSVal := JSVal.promiseVal

/-- The variant guard
`!session?.userId || !checkPermission(session, config.adminPermission)`
shared verbatim by `menu.add`, `menu.toggle`, `menu.delete`, `menu.edit` and
`menu.category.change` in both variant sources. -/
def variantGuardDenies (s : Session) : Bool :=
  (s.userId == "") || (!(variantPermissionCall s).truthy)

/-- `menu.delete` as the variant sources implement it (part_000 lines
326-339, part_001 lines 505-518). -/
def variantMenuDelete (store : MenuStore) (s : Session) (id : String) :
    String × MenuStore :=
  if variantGuardDenies s then (permDeniedMsg, store)
  else
    match storeGet store id with
    | none => (notFoundMsg id, store)
    | some item =>
      ("✅ 菜单项 \"" ++ item.name ++ "\" 已删除。", storeDelete store id)

/-- A sample entry builder for concrete test stores. -/
def mkItem (id name : String) (ord : Int) (cat : String) : MenuItem :=
  { id := id
    name := name
    description := "描述"
    command := "#cmd"
    category := cat
    enabled := true
    order := ord
    permissions := [] }

/-- A stored entry with id `x`. -/
def dupOld : MenuItem := mkItem "x" "旧" 1 "日常"

/-- A second, different entry with the same id `x`. -/
def dupNew : MenuItem := mkItem "x" "新" 2 "日常"

/-- An entry whose display order is 5, for the edit round trip. -/
def editBase : MenuItem := mkItem "x" "n" 5 "cat"

/-- A session that passes `checkPermission` through the authority field. -/
def adminSession : Session := { userId := "1", authority := 3, permTest := none }

/-- An ordinary session: no authority, no permission plugin, not on the
admin list. -/
def plainSession : Session := { userId := "7", authority := 0, permTest := none }

/-- A session the permission system rejects. -/
def deniedSession : Session := { userId := "42", authority := 0, permTest := some false }

/-- An edit supplying only `order` with the falsy value 0. -/
def orderZeroOpts : EditOptions := { order := some 0 }

/-- A configuration with five items per page (the schema minimum). -/
def cfg5 : Config := { itemsPerPage := 5 }

/-- Six enabled entries in category `娱乐`, orders 1..6. -/
def sixItems : MenuStore :=
  [ mkItem "i1" "一" 1 "娱乐"
  , mkItem "i2" "二" 2 "娱乐"
  , mkItem "i3" "三" 3 "娱乐"
  , mkItem "i4" "四" 4 "娱乐"
  , mkItem "i5" "五" 5 "娱乐"
  , mkItem "i6" "六" 6 "娱乐" ]

/-- A show-all browse request. -/
def qAll : MenuQuery := { all := true }

/-- A text-mode browse request with a category filter, page 1. -/
def qCat : MenuQuery := { category := some "娱" }

/-- Three entries for the pagination-reconstruction witness. -/
def threeItems : MenuStore :=
  [mkItem "a" "甲" 1 "c", mkItem "b" "乙" 2 "c", mkItem "c" "丙" 3 "c"]

/-- Entry `a` with order 2 (first in input). -/
def sortA : MenuItem := mkItem "a" "甲" 2 "c"

/-- Entry `b` with order 1. -/
def sortB : MenuItem := mkItem "b" "乙" 1 "c"

/-- Entry `c` with order 2 (last in input). -/
def sortC : MenuItem := mkItem "c" "丙" 2 "c"

/-- Replacing the entry keyed by `e.id` keeps it retrievable under `e.id`. -/
theorem storeGet_map_replace (e : MenuItem) :
    ∀ st : MenuStore, st.any (fun x => decide (x.id = e.id)) = true →
      storeGet (st.map (fun x => if x.id = e.id then e else x)) e.id = some e := by
  intro st
  induction st with
  | nil => intro h; simp at h
  | cons x xs ih =>
    intro h
    by_cases hx : x.id = e.id
    · simp [storeGet, hx]
    · have hxs : xs.any (fun y => decide (y.id = e.id)) = true := by
        simp [List.any_cons, hx] at h
        simpa using h
      simpa [storeGet, hx] using ih hxs

/-- Appending a new entry makes it retrievable when its id was absent. -/
theorem storeGet_append_new (e : MenuItem) :
    ∀ st : MenuStore, st.any (fun x => decide (x.id = e.id)) = false →
      storeGet (st ++ [e]) e.id = some e := by
  intro st
  induction st with
  | nil => intro _; simp [storeGet]
  | cons x xs ih =>
    intro h
    simp only [List.any_cons, Bool.or_eq_false_iff, decide_eq_false_iff_not] at h
    simpa [storeGet, h.1] using ih (by simpa using h.2)

/-- After `Map.set`, the written entry is what `Map.get` returns for its id. -/
theorem storeGet_storeSet_self (st : MenuStore) (e : MenuItem) :
    storeGet (storeSet st e) e.id = some e := by
  unfold storeSet
  by_cases h : st.any (fun x => decide (x.id = e.id)) = true
  · rw [if_pos h]; exact storeGet_map_replace e st h
  · rw [if_neg h]
    exact storeGet_append_new e st (Bool.not_eq_true _ ▸ Bool.of_not_eq_true h)

/-- After `Map.delete`, the id is gone. -/
theorem storeGet_storeDelete_self (st : MenuStore) (id : String) :
    storeGet (storeDelete st id) id = none := by
  unfold storeGet storeDelete
  rw [List.find?_eq_none]
  intro x hx
  have hmem := List.mem_filter.mp hx
  simpa using (by simpa using hmem.2 : x.id ≠ id)

/-- A successful `Map.get` returns an entry carrying the requested id. -/
theorem storeGet_id_eq {st : MenuStore} {id : String} {item : MenuItem}
    (h : storeGet st id = some item) : item.id = id := by
  have := List.find?_some h
  simpa using this

/-- A successful `Map.get` means the id test succeeds somewhere in the store. -/
theorem storeGet_any {st : MenuStore} {id : String} {item : MenuItem}
    (h : storeGet st id = some item) :
    st.any (fun x => decide (x.id = id)) = true := by
  have hmem : item ∈ st := List.mem_of_find?_eq_some h
  rw [List.any_eq_true]
  exact ⟨item, hmem, by simpa using storeGet_id_eq h⟩

/-- String append acts as list append on the underlying character data. -/
theorem strData_append (a b : String) : (a ++ b).data = a.data ++ b.data := rfl

/-- String append is associative. -/
theorem strAppend_assoc (a b c : String) : a ++ b ++ c = a ++ (b ++ c) :=
  congrArg String.mk (List.append_assoc a.data b.data c.data)

/-- `includes` finds a pattern that occurs between two other strings. -/
theorem strIncludes_append (x pat y : String) :
    strIncludes (x ++ pat ++ y) pat = true := by
  unfold strIncludes
  rw [List.any_eq_true]
  refine ⟨x.data.length, ?_, ?_⟩
  · rw [List.mem_range, strData_append, strData_append, List.length_append,
      List.length_append]
    omega
  · rw [decide_eq_true_eq, strData_append, strData_append, List.append_assoc,
      List.drop_left, List.take_left]

/-- Inserting `a` in order commutes with filtering an order class: `a` lands
in front of the class members already present exactly when it belongs to the
class. -/
theorem filter_orderedInsert (a : MenuItem) (k : Int) :
    ∀ l : List MenuItem,
      (List.orderedInsert menuItemLe a l).filter (fun x => decide (x.order = k))
        = if a.order = k then
            a :: l.filter (fun x => decide (x.order = k))
          else l.filter (fun x => decide (x.order = k)) := by
  intro l
  induction l with
  | nil => by_cases h : a.order = k <;> simp [List.orderedInsert, h]
  | cons b l ih =>
    by_cases hab : menuItemLe a b
    · by_cases h : a.order = k <;>
        simp [List.orderedInsert, hab, List.filter_cons, h]
    · have hba : b.order < a.order := by
        have := lt_of_not_le (fun hle => hab hle)
        exact this
      by_cases hak : a.order = k
      · have hbk : ¬ b.order = k := by omega
        simp [List.orderedInsert, hab, List.filter_cons, hbk, ih, hak]
      · simp [List.orderedInsert, hab, List.filter_cons, ih, hak]

/-- The stable sort leaves each order class's subsequence unchanged. -/
theorem filter_sortByOrder (k : Int) :
    ∀ l : List MenuItem,
      (sortByOrder l).filter (fun x => decide (x.order = k))
        = l.filter (fun x => decide (x.order = k)) := by
  intro l
  induction l with
  | nil => rfl
  | cons a l ih =>
    show (List.orderedInsert menuItemLe a (sortByOrder l)).filter _ = _
    rw [filter_orderedInsert, ih]
    by_cases h : a.order = k <;> simp [List.filter_cons, h]

/-- Concatenating `n` consecutive windows of width `s` yields the whole list
once the windows cover its length. -/
theorem join_take_drop (s : Nat) :
    ∀ (n : Nat) (l : List MenuItem), l.length ≤ n * s →
      ((List.range n).map (fun i => (l.drop (i * s)).take s)).flatten = l := by
  intro n
  induction n with
  | zero =>
    intro l hl
    have : l = [] := List.eq_nil_of_length_eq_zero (by omega)
    simp [this]
  | succ n ih =>
    intro l hl
    rw [List.range_succ_eq_map]
    simp only [List.map_cons, List.map_map, List.flatten_cons,
      Nat.zero_mul, List.drop_zero]
    have hmap :
        List.map ((fun i => List.take s (List.drop (i * s) l)) ∘ Nat.succ)
            (List.range n)
          = List.map (fun i => List.take s (List.drop (i * s) (List.drop s l)))
            (List.range n) :=
      List.map_congr_left (fun i _ => by
        show List.take s (List.drop (Nat.succ i * s) l) = _
        rw [Nat.succ_mul, Nat.add_comm (i * s) s, ← List.drop_drop])
    rw [hmap]
    rw [ih (l.drop s) (by
      rw [List.length_drop]
      rw [Nat.succ_mul] at hl
      revert hl
      generalize n * s = m
      intro hl
      omega)]
    exact List.take_append_drop s l

/-- The ceiling page count times the page size covers the item count. -/
theorem le_jsCeilDiv_mul (n s : Nat) (hs : 0 < s) : n ≤ jsCeilDiv n s * s := by
  unfold jsCeilDiv
  have h1 : (n + s - 1) / s * s + (n + s - 1) % s = n + s - 1 :=
    Nat.div_add_mod' _ _
  have h2 : (n + s - 1) % s < s := Nat.mod_lt _ hs
  revert h1 h2
  generalize (n + s - 1) / s * s = m
  generalize (n + s - 1) % s = r
  intro h1 h2
  omega

/-- The ceiling page count is positive for a positive item count. -/
theorem jsCeilDiv_pos (n s : Nat) (hn : 0 < n) (hs : 0 < s) :
    0 < jsCeilDiv n s :=
  Nat.div_pos (by omega) hs

/-- One page fewer than the ceiling page count does not cover the items. -/
theorem jsCeilDiv_pred_mul_lt (n s : Nat) (hn : 0 < n) (hs : 0 < s) :
    (jsCeilDiv n s - 1) * s < n := by
  unfold jsCeilDiv
  rw [Nat.sub_mul, Nat.one_mul]
  have h1 : (n + s - 1) / s * s + (n + s - 1) % s = n + s - 1 :=
    Nat.div_add_mod' _ _
  have h2 : (n + s - 1) % s < s := Nat.mod_lt _ hs
  revert h1 h2
  generalize (n + s - 1) / s * s = m
  generalize (n + s - 1) % s = r
  intro h1 h2
  omega

/-- C1 counterexample: inserting a second entry with the already-present id
`x` does not fail — it silently replaces the stored entry, and the store size
stays 1 instead of the operation failing with `DuplicateId`. -/
theorem storeSet_overwrites_cex :
    storeSet [dupOld] dupNew = [dupNew]
    ∧ dupOld ≠ dupNew
    ∧ (storeSet [dupOld] dupNew).length = 1 := by
  refine ⟨by decide, by decide, by decide⟩

/-- C1 (amended): the insertion used by `menu.add` is an unguarded upsert.
If the id is already present the new entry replaces the stored one in place
and the store size is unchanged; if the id is absent the entry is appended
and the size increases by exactly one.  In both cases the written entry is
what `get` subsequently returns for that id. -/
theorem storeSet_upsert_spec (st : MenuStore) (e : MenuItem) :
    storeGet (storeSet st e) e.id = some e
    ∧ (st.any (fun x => decide (x.id = e.id)) = true →
        (storeSet st e).length = st.length)
    ∧ (st.any (fun x => decide (x.id = e.id)) = false →
        storeSet st e = st ++ [e] ∧ (storeSet st e).length = st.length + 1) := by
  refine ⟨storeGet_storeSet_self st e, ?_, ?_⟩
  · intro h
    unfold storeSet
    rw [if_pos h, List.length_map]
  · intro h
    unfold storeSet
    rw [if_neg (by simp [h])]
    exact ⟨rfl, by simp⟩

/-- C1 witness: upsert on a present id keeps the size; insert on an absent id
appends. -/
theorem storeSet_upsert_spec_witness :
    (storeSet [dupOld] dupNew).length = [dupOld].length
    ∧ storeSet [] dupNew = [] ++ [dupNew] :=
  ⟨(storeSet_upsert_spec [dupOld] dupNew).2.1 (by decide),
   ((storeSet_upsert_spec [] dupNew).2.2 (by decide)).1⟩

/-- C2 counterexample: at the default configuration the planner produces 4
columns, the source's per-item pixel reduction is `12/4 = 3`, not the claimed
`12·(4−1)/4 = 9`, and 4 boxes plus 3 gaps occupy 1624 px of a 1600 px row —
they do not fit the row width exactly. -/
theorem flexBasis_gap_cex :
    columns defaultConfig = 4
    ∧ (flexBasis 4).2 = 3
    ∧ specGapReduction 4 = 9
    ∧ (flexBasis 4).2 ≠ specGapReduction 4
    ∧ (4 : ℚ) * itemWidth 1600 4 + (4 - 1) * gapSize = 1624
    ∧ (1624 : ℚ) ≠ 1600 := by
  refine ⟨rfl, ?_, ?_, ?_, ?_, by norm_num⟩ <;>
    norm_num [flexBasis, specGapReduction, itemWidth, gapSize]

/-- C2 (amended): each item's box share is `100/columns` percent reduced by
`gap/columns` (not `gap·(columns−1)/columns`), so the implied item width is
`(rowWidth − gap)/columns`, and `columns` boxes plus `columns − 1` gaps
occupy `rowWidth + gap·(columns − 2)` — an exact row fit only when
`columns = 2`. -/
theorem flexBasis_formula (c : Nat) (w : ℚ) (hc : 0 < c) :
    itemWidth w c = (w - 12) / (c : ℚ)
    ∧ (c : ℚ) * itemWidth w c + ((c : ℚ) - 1) * gapSize = w + 12 * ((c : ℚ) - 2) := by
  have hc0 : (c : ℚ) ≠ 0 := Nat.cast_ne_zero.mpr (Nat.pos_iff_ne_zero.mp hc)
  constructor
  · unfold itemWidth flexBasis
    field_simp
    ring
  · unfold itemWidth flexBasis gapSize
    field_simp
    ring

/-- C2 witness: the formula at the default 4 columns and 1600 px width. -/
theorem flexBasis_formula_witness :
    itemWidth 1600 4 = (1600 - 12) / (4 : ℚ) :=
  (flexBasis_formula 4 1600 (by norm_num)).1

/-- C3 counterexample: with zero filtered entries the computed total page
count is `Math.ceil(0/10) = 0`, not the claimed minimum of 1. -/
theorem totalPages_zero_cex :
    (menuPaginate defaultConfig {} ([] : MenuStore)).totalPagesValue = 0 := by
  decide

/-- C3 (amended): the total page count is `ceil(filteredCount / pageSize)`
with no minimum-1 clamp; whenever the page window is non-empty (the only case
in which the action reports a page count rather than the no-items message)
that count is at least 1 and is exactly the ceiling: `totalPages` pages cover
the filtered count and `totalPages − 1` pages do not. -/
theorem totalPages_ceil_of_nonempty (cfg : Config) (q : MenuQuery)
    (filtered : List MenuItem) (hs : 0 < cfg.itemsPerPage) (hall : q.all = false)
    (hne : (menuPaginate cfg q filtered).pageItems ≠ []) :
    1 ≤ (menuPaginate cfg q filtered).totalPagesValue
    ∧ filtered.length
        ≤ (menuPaginate cfg q filtered).totalPagesValue * cfg.itemsPerPage
    ∧ ((menuPaginate cfg q filtered).totalPagesValue - 1) * cfg.itemsPerPage
        < filtered.length := by
  have hq : ¬ (q.all = true) := by simp [hall]
  simp only [menuPaginate, if_neg hq] at hne ⊢
  have hlen : 0 < filtered.length := by
    by_contra h
    have hnil : filtered = [] := List.eq_nil_of_length_eq_zero (by omega)
    simp [hnil] at hne
  exact ⟨jsCeilDiv_pos _ _ hlen hs, le_jsCeilDiv_mul _ _ hs,
    jsCeilDiv_pred_mul_lt _ _ hlen hs⟩

/-- C3 witness: six entries at five per page give a positive page count. -/
theorem totalPages_ceil_of_nonempty_witness :
    1 ≤ (menuPaginate cfg5 {} sixItems).totalPagesValue :=
  (totalPages_ceil_of_nonempty cfg5 {} sixItems (by decide) (by decide)
    (by decide)).1

/-- C4 (code bug): in show-all text mode with six entries at five per page,
the all-branch computes current page 1 of total pages 1 with the full
filtered sequence, and the image footer would accordingly show neither a page
indicator nor a next-page hint — yet the text footer, recomputed from the
unpaginated count, still reports page 1 of 2 and a next-page invocation. -/
theorem showAll_text_footer_bug :
    (menuPaginate cfg5 qAll (menuFiltered cfg5 sixItems qAll)).currentPage = 1
    ∧ (menuPaginate cfg5 qAll (menuFiltered cfg5 sixItems qAll)).totalPagesValue = 1
    ∧ (menuPaginate cfg5 qAll (menuFiltered cfg5 sixItems qAll)).pageItems
        = menuFiltered cfg5 sixItems qAll
    ∧ imagePageInfo 1 1 = ""
    ∧ nextPageHint 1 1 none true = ""
    ∧ textPageFooter cfg5 qAll (menuFiltered cfg5 sixItems qAll).length
        = "\n第 1/2 页，使用 menu -p 2 查看下一页" := by
  refine ⟨rfl, rfl, rfl, rfl, by decide, by decide⟩

/-- C5 counterexample: a text-mode browse with category filter `娱` over six
matching entries (five per page, page 1 of 2, so a further page exists)
emits a footer whose next-page text contains neither the category value nor
a category flag. -/
theorem text_footer_category_cex :
    (menuFiltered cfg5 sixItems qCat).length = 6
    ∧ jsCeilDiv (menuFiltered cfg5 sixItems qCat).length cfg5.itemsPerPage = 2
    ∧ textPageFooter cfg5 qCat (menuFiltered cfg5 sixItems qCat).length
        = "\n第 1/2 页，使用 menu -p 2 查看下一页"
    ∧ strIncludes
        (textPageFooter cfg5 qCat (menuFiltered cfg5 sixItems qCat).length)
        "娱" = false
    ∧ strIncludes
        (textPageFooter cfg5 qCat (menuFiltered cfg5 sixItems qCat).length)
        "-c" = false := by
  refine ⟨by decide, by decide, by decide, by decide, by decide⟩

/-- C5 (amended): when a further page exists outside show-all mode, the
image-mode footer's next-page hint is the literal invocation text and does
include the supplied category filter; the text-mode footer, however, is
independent of the category option — its hint names only `menu -p (page+1)`. -/
theorem nextPage_hint_category (pageNum totalPages : Nat) (c : String)
    (cfg : Config) (q : MenuQuery) (n : Nat)
    (hc : c ≠ "") (hp : 1 < totalPages) (hlt : pageNum < totalPages) :
    nextPageHint pageNum totalPages (some c) false
      = "<div class=\"next-page-hint\">📄 下一页: menu -p "
          ++ toString (pageNum + 1) ++ " -c " ++ c ++ " -i</div>"
    ∧ strIncludes (nextPageHint pageNum totalPages (some c) false)
        (" -c " ++ c) = true
    ∧ textPageFooter cfg q n = textPageFooter cfg { q with category := none } n := by
  have hcond : ¬ (false : Bool) = true ∧ 1 < totalPages ∧ pageNum < totalPages :=
    ⟨by simp, hp, hlt⟩
  have hbody : nextPageHint pageNum totalPages (some c) false
      = ("<div class=\"next-page-hint\">📄 下一页: menu -p "
          ++ toString (pageNum + 1)) ++ (" -c " ++ c) ++ " -i</div>" := by
    unfold nextPageHint
    rw [if_pos hcond]
    simp [truthyStrOpt, hc]
  refine ⟨?_, ?_, rfl⟩
  · rw [hbody]
    simp only [strAppend_assoc]
  · rw [hbody]
    exact strIncludes_append _ _ _

/-- C5 witness: the image hint at page 1 of 2 with category `娱` contains
the category flag. -/
theorem nextPage_hint_category_witness :
    strIncludes (nextPageHint 1 2 (some "娱") false) (" -c " ++ "娱") = true :=
  (nextPage_hint_category 1 2 "娱" cfg5 qCat 6 (by decide) (by decide)
    (by decide)).2.1

/-- C6: the browse sort is ascending in the `order` field and stable — each
order class keeps its relative input sequence — and on the documented example
`[a: order 2, b: order 1, c: order 2]` it yields `[b, a, c]`. -/
theorem sort_stable_by_order :
    (∀ l : List MenuItem, List.Sorted menuItemLe (sortByOrder l))
    ∧ (∀ (l : List MenuItem) (k : Int),
        (sortByOrder l).filter (fun x => decide (x.order = k))
          = l.filter (fun x => decide (x.order = k)))
    ∧ sortByOrder [sortA, sortB, sortC] = [sortB, sortA, sortC] := by
  refine ⟨fun l => List.sorted_insertionSort menuItemLe l,
    fun l k => filter_sortByOrder k l, by decide⟩

/-- C7 counterexample: an authorized edit supplying only `order: 0` leaves
the entry's order at 5 — `if (options.order)` treats the supplied value 0 as
falsy — so the result is not the pre-update entry with order replaced by 0,
contradicting "applies exactly the supplied fields". -/
theorem edit_falsy_order_cex :
    storeGet (menuEdit [editBase] adminSession "x" orderZeroOpts).2 "x"
      = some editBase
    ∧ storeGet (menuEdit [editBase] adminSession "x" orderZeroOpts).2 "x"
        ≠ some { editBase with order := 0 }
    ∧ editBase.order = 5 := by
  refine ⟨by decide, by decide, by decide⟩

/-- C7 (amended): for an authorized caller and a stored id, `menu.edit`
applies exactly the supplied fields provided each supplied value is truthy
(non-empty string, non-zero number), leaving every unsupplied field — and
always `id`, `enabled` and `permissions` — unchanged, and the edited entry is
what `get` then returns for that id. -/
theorem edit_partial_update (store : MenuStore) (s : Session) (id : String)
    (item : MenuItem) (o : EditOptions)
    (hauth : guardDenies s = false)
    (hget : storeGet store id = some item)
    (h₁ : o.name = none ∨ ∃ v, o.name = some v ∧ v ≠ "")
    (h₂ : o.description = none ∨ ∃ v, o.description = some v ∧ v ≠ "")
    (h₃ : o.command = none ∨ ∃ v, o.command = some v ∧ v ≠ "")
    (h₄ : o.category = none ∨ ∃ v, o.category = some v ∧ v ≠ "")
    (h₅ : o.order = none ∨ ∃ v, o.order = some v ∧ v ≠ 0) :
    applyEdit item o
      = { id := item.id
          name := o.name.getD item.name
          description := o.description.getD item.description
          command := o.command.getD item.command
          category := o.category.getD item.category
          enabled := item.enabled
          order := o.order.getD item.order
          permissions := item.permissions }
    ∧ storeGet (menuEdit store s id o).2 id = some (applyEdit item o) := by
  have e₁ : applyEdit item o
      = { id := item.id
          name := o.name.getD item.name
          description := o.description.getD item.description
          command := o.command.getD item.command
          category := o.category.getD item.category
          enabled := item.enabled
          order := o.order.getD item.order
          permissions := item.permissions } := by
    rcases h₁ with h₁ | ⟨v₁, hv₁, u₁⟩ <;>
      rcases h₂ with h₂ | ⟨v₂, hv₂, u₂⟩ <;>
      rcases h₃ with h₃ | ⟨v₃, hv₃, u₃⟩ <;>
      rcases h₄ with h₄ | ⟨v₄, hv₄, u₄⟩ <;>
      rcases h₅ with h₅ | ⟨v₅, hv₅, u₅⟩ <;>
      simp_all [applyEdit]
  have hsnd : (menuEdit store s id o).2 = storeSet store (applyEdit item o) := by
    simp [menuEdit, hauth, hget]
  have hid : (applyEdit item o).id = id := by
    rw [e₁]
    show item.id = id
    exact storeGet_id_eq hget
  refine ⟨e₁, ?_⟩
  rw [hsnd, ← hid]
  exact storeGet_storeSet_self store (applyEdit item o)

/-- C7 witness: the documented round trip — editing only the name to `X`
yields the pre-update entry with just the name changed, retrievable under the
same id. -/
theorem edit_partial_update_witness :
    storeGet (menuEdit [editBase] adminSession "x" { name := some "X" }).2 "x"
      = some (applyEdit editBase { name := some "X" })
    ∧ applyEdit editBase { name := some "X" } = { editBase with name := "X" } := by
  have h := edit_partial_update [editBase] adminSession "x" editBase
    { name := some "X" } (by decide) (by decide)
    (Or.inr ⟨"X", rfl, by decide⟩) (Or.inl rfl) (Or.inl rfl) (Or.inl rfl)
    (Or.inl rfl)
  exact ⟨h.2, h.1.trans (by decide)⟩

/-- C8: a caller failing `checkPermission` gets the permission-denied reply
from every mutating command — add (with valid inputs), edit, delete, toggle,
recategorize — the store is returned unchanged, and after a denied delete the
entry is still retrievable. -/
theorem unauthorized_mutations_unchanged (cfg : Config) (store : MenuStore)
    (s : Session) (hs : checkPermission s = false) :
    (∀ name command descOpt catOpt orderOpt suffix, name ≠ "" → command ≠ "" →
        menuAdd cfg store s name command descOpt catOpt orderOpt suffix
          = (permDeniedMsg, store))
    ∧ (∀ id o, menuEdit store s id o = (permDeniedMsg, store))
    ∧ (∀ id, menuDelete store s id = (permDeniedMsg, store))
    ∧ (∀ id, menuToggle store s id = (permDeniedMsg, store))
    ∧ (∀ id nc, menuCategoryChange store s id nc = (permDeniedMsg, store))
    ∧ (∀ id, storeGet (menuDelete store s id).2 id = storeGet store id) := by
  have hg : guardDenies s = true := by simp [guardDenies, hs]
  refine ⟨?_, ?_, ?_, ?_, ?_, ?_⟩ <;> intros <;>
    simp [menuAdd, menuEdit, menuDelete, menuToggle, menuCategoryChange, hg, *]

/-- C8 witness: the denied session cannot delete the stored entry `x`, and
the entry remains retrievable afterward. -/
theorem unauthorized_mutations_unchanged_witness :
    checkPermission deniedSession = false
    ∧ menuDelete [editBase] deniedSession "x" = (permDeniedMsg, [editBase])
    ∧ storeGet (menuDelete [editBase] deniedSession "x").2 "x" = some editBase := by
  have h := unauthorized_mutations_unchanged defaultConfig [editBase]
    deniedSession (by decide)
  exact ⟨by decide, h.2.2.1 "x", (h.2.2.2.2.2 "x").trans (by decide)⟩

/-- C9: with a positive page size, concatenating the slices of pages
1 through `ceil(N / pageSize)` reconstructs the filtered, sorted sequence
exactly. -/
theorem pages_concat_reconstructs (cfg : Config) (l : List MenuItem)
    (hs : 0 < cfg.itemsPerPage) :
    ((List.range (jsCeilDiv l.length cfg.itemsPerPage)).map
        (fun p => menuSlice cfg.itemsPerPage l (p + 1))).flatten = l := by
  have hcov : l.length ≤ jsCeilDiv l.length cfg.itemsPerPage * cfg.itemsPerPage :=
    le_jsCeilDiv_mul _ _ hs
  have hsl : ∀ p : Nat, menuSlice cfg.itemsPerPage l (p + 1)
      = (l.drop (p * cfg.itemsPerPage)).take cfg.itemsPerPage := by
    intro p
    simp [menuSlice]
  simp only [hsl]
  exact join_take_drop cfg.itemsPerPage _ l hcov

/-- C9 witness: six entries at five per page — two pages whose concatenation
is the input. -/
theorem pages_concat_reconstructs_witness :
    ((List.range (jsCeilDiv sixItems.length cfg5.itemsPerPage)).map
        (fun p => menuSlice cfg5.itemsPerPage sixItems (p + 1))).flatten
      = sixItems :=
  pages_concat_reconstructs cfg5 sixItems (by decide)

/-- C10: in the variant sources the permission guard negates an
always-truthy Promise object, so it denies exactly the sessions with an
empty user id; any caller with a non-empty user id reaches the store, and a
delete of a stored id removes the entry. -/
theorem variant_permission_unreachable (store : MenuStore) (s : Session)
    (id : String) (item : MenuItem)
    (hu : s.userId ≠ "") (hget : storeGet store id = some item) :
    variantGuardDenies s = false
    ∧ variantMenuDelete store s id
        = ("✅ 菜单项 \"" ++ item.name ++ "\" 已删除。", storeDelete store id)
    ∧ storeGet (variantMenuDelete store s id).2 id = none := by
  have hg : variantGuardDenies s = false := by
    simp [variantGuardDenies, variantPermissionCall, JSVal.truthy, hu]
  refine ⟨hg, ?_, ?_⟩
  · simp [variantMenuDelete, hg, hget]
  · simp [variantMenuDelete, hg, hget, storeGet_storeDelete_self]

/-- C10 witness: an ordinary session (no authority, not on the admin list —
`checkPermission` itself would say no) still deletes entry `x` in the
variant. -/
theorem variant_permission_unreachable_witness :
    checkPermission plainSession = false
    ∧ variantGuardDenies plainSession = false
    ∧ storeGet (variantMenuDelete [editBase] plainSession "x").2 "x" = none := by
  have h := variant_permission_unreachable [editBase] plainSession "x" editBase
    (by decide) (by decide)
  exact ⟨by decide, h.1, h.2.2⟩
